import Mathlib

/-!
Verification of the snapshots reconciliation engine (`snapshots/core.py`).

The Python module is shallowly embedded: snapshots are association lists
from relative-path strings to entries, the four-way diff is a fold over the
combined key set exactly mirroring the source's loop, and the two sync
engines are pure functions producing the trace of reporter events and the
trace of filesystem actions they would perform.  Modification times are
modelled as integers (the source only ever compares them with `>`, `==`
and `!=`).  The primitive file operations are modelled as functions of the
outcomes of the OS calls they wrap, so that the catch/propagate policy of
each one is visible in its type.
-/

namespace Snapshots

/-- One filesystem object captured in a snapshot
(`Entry = namedtuple('Entry', 'path relative_path isfile mtime')`). -/
structure Entry where
  path : String
  relative_path : String
  isfile : Bool
  mtime : Int
deriving DecidableEq, Repr

/-- A snapshot: a dict mapping relative paths to entries. -/
abbrev Snapshot := List (String × Entry)

/-- The keys of a snapshot (`snapshot.keys()`). -/
def keys (s : Snapshot) : List String := s.map Prod.fst

/-- The combined key set `set(prev_snapshot.keys()) | set(next_snapshot.keys())`
iterated by `diff`; `dedup` models the set's uniqueness of keys. -/
def combined_keys (prev_snapshot next_snapshot : Snapshot) : List String :=
  (keys prev_snapshot ++ keys next_snapshot).dedup

/-- The four lists built by `diff`. -/
structure SnapshotDiff where
  left_only : List String
  right_only : List String
  changed : List String
  common : List String
deriving DecidableEq, Repr

/-- One iteration of the loop body of `diff`: place `path` in the class the
source's if/elif chain selects.  Note the inner `if next_snapshot[path].isfile`
has no `else`: a key present in both snapshots with differing mtimes whose
`next` entry is not a file is appended to no list at all. -/
def classify (prev_snapshot next_snapshot : Snapshot) (d : SnapshotDiff)
    (path : String) : SnapshotDiff :=
  match prev_snapshot.lookup path, next_snapshot.lookup path with
  | some _, none => { d with left_only := d.left_only ++ [path] }
  | none, some _ => { d with right_only := d.right_only ++ [path] }
  | some pe, some ne =>
      if ne.mtime ≠ pe.mtime then
        if ne.isfile then { d with changed := d.changed ++ [path] } else d
      else
        { d with common := d.common ++ [path] }
  | none, none => d

/-- `diff(prev_snapshot, next_snapshot)`: partition the combined keys. -/
def diff (prev_snapshot next_snapshot : Snapshot) : SnapshotDiff :=
  (combined_keys prev_snapshot next_snapshot).foldl
    (classify prev_snapshot next_snapshot) ⟨[], [], [], []⟩

/-- Condition under which `diff` puts a key into `left_only`. -/
def left_cond (prev_snapshot next_snapshot : Snapshot) (k : String) : Bool :=
  (prev_snapshot.lookup k).isSome && (next_snapshot.lookup k).isNone

/-- Condition under which `diff` puts a key into `right_only`. -/
def right_cond (prev_snapshot next_snapshot : Snapshot) (k : String) : Bool :=
  (prev_snapshot.lookup k).isNone && (next_snapshot.lookup k).isSome

/-- Condition under which `diff` puts a key into `changed`. -/
def changed_cond (prev_snapshot next_snapshot : Snapshot) (k : String) : Bool :=
  match prev_snapshot.lookup k, next_snapshot.lookup k with
  | some pe, some ne => decide (ne.mtime ≠ pe.mtime) && ne.isfile
  | _, _ => false

/-- Condition under which `diff` puts a key into `common`. -/
def common_cond (prev_snapshot next_snapshot : Snapshot) (k : String) : Bool :=
  match prev_snapshot.lookup k, next_snapshot.lookup k with
  | some pe, some ne => decide (ne.mtime = pe.mtime)
  | _, _ => false

/-- Condition under which `diff` drops a key from the partition entirely:
present in both snapshots, mtimes differ, and the `next` entry is a
directory. -/
def dropped_cond (prev_snapshot next_snapshot : Snapshot) (k : String) : Bool :=
  match prev_snapshot.lookup k, next_snapshot.lookup k with
  | some pe, some ne => decide (ne.mtime ≠ pe.mtime) && !ne.isfile
  | _, _ => false

/-- Result of a primitive OS call or of one of the wrapped file operations:
either a normal return or a raised exception carrying a message. -/
inductive PrimResult where
  | ok : PrimResult
  | error (msg : String) : PrimResult
deriving DecidableEq, Repr

/-- `remove_file(path)`: wraps `os.remove` in try/except, printing the error.
The first component is what the caller sees; the second is the printed log. -/
def remove_file (os_remove : PrimResult) : PrimResult × List String :=
  match os_remove with
  | .ok => (.ok, [])
  | .error e => (.ok, [e])

/-- `remove_folder(path)`: inside try/except, lists the directory and removes
it only when the listing is empty.  `os_listdir` is the outcome of
`os.listdir(path)`, `os_rmdir` of `os.rmdir(path)`. -/
def remove_folder (os_listdir : Except String (List String))
    (os_rmdir : PrimResult) : PrimResult × List String :=
  match os_listdir with
  | .error e => (.ok, [e])
  | .ok entries =>
      if entries.isEmpty then
        match os_rmdir with
        | .ok => (.ok, [])
        | .error e => (.ok, [e])
      else (.ok, [])

/-- `create_folder(path)`: no-op when `path` is already a directory, else
`os.makedirs` inside try/except. -/
def create_folder (is_dir : Bool) (os_makedirs : PrimResult) :
    PrimResult × List String :=
  if is_dir then (.ok, [])
  else
    match os_makedirs with
    | .ok => (.ok, [])
    | .error e => (.ok, [e])

/-- `copy_file(src, dst)`: `create_folder(os.path.dirname(dst))` followed by a
bare `shutil.copy2(src, dst)` — the copy itself is outside any try/except. -/
def copy_file (dst_parent_is_dir : Bool) (os_makedirs : PrimResult)
    (shutil_copy2 : PrimResult) : PrimResult × List String :=
  let created := create_folder dst_parent_is_dir os_makedirs
  match shutil_copy2 with
  | .ok => (.ok, created.2)
  | .error e => (.error e, created.2)

/-- `x.count('/')`: number of forward-slash separators in a path string. -/
def sep_count (s : String) : Nat := s.data.countP (· == '/')

/-- Stable insertion of `x` into a list already sorted by separator count
descending: `x` goes before the first element whose count it reaches. -/
def insert_by_depth (x : String) : List String → List String
  | [] => [x]
  | y :: ys =>
      if sep_count y ≤ sep_count x then x :: y :: ys
      else y :: insert_by_depth x ys

/-- `depth_sort(files)`: `sorted(files, key=lambda x: x.count('/'), reverse=True)`
— stable, deepest first. -/
def depth_sort : List String → List String
  | [] => []
  | x :: xs => insert_by_depth x (depth_sort xs)

/-- `a` is an ancestor of `p`: `p` extends `a` past a `/` separator. -/
def is_ancestor (a p : String) : Prop := ∃ s, p = a ++ "/" ++ s

/-- The descending-depth order `depth_sort` establishes. -/
def depth_ge (p q : String) : Prop := sep_count q ≤ sep_count p

/-- `normalize(start, rel)` as used by the sync engines, for `start` already
normalized and `rel` a dot-free relative path: `normpath(join(start, rel))`
is `start` itself when `rel` is `"."` and `start ++ "/" ++ rel` otherwise. -/
def normalize (start rel : String) : String :=
  if rel = "." then start else start ++ "/" ++ rel

/-- One call on the progress reporter protocol. -/
inductive Event where
  | set_total (n : Nat)
  | start (msg : String)
  | info (msg : String)
  | step (amount : Nat) (msg : String)
  | done (msg : String)
deriving DecidableEq, Repr

/-- One filesystem mutation issued by a sync engine. -/
inductive Action where
  | copy_file (src dst : String)
  | create_folder (path : String)
  | remove_file (path : String)
  | remove_folder (path : String)
deriving DecidableEq, Repr

/-- Run one per-key loop body over a list of keys, concatenating the reporter
events and the filesystem actions each iteration produces. -/
def run_phase (f : String → List Event × List Action) (ks : List String) :
    List Event × List Action :=
  (ks.flatMap fun k => (f k).1, ks.flatMap fun k => (f k).2)

/-- Loop body of the additions phase (`for path_key in snapshot_diff['left_only']`
in both engines): report one step, then copy the file or create the folder
unless `dry`. -/
def sync_copy_step (src_snapshot : Snapshot) (dst : String) (dry : Bool)
    (path_key : String) : List Event × List Action :=
  match src_snapshot.lookup path_key with
  | none => ([], [])
  | some entry =>
      ([Event.step 1 ("R-> Copy " ++ entry.relative_path)],
       if dry then []
       else if entry.isfile then
         [Action.copy_file entry.path (normalize dst entry.relative_path)]
       else
         [Action.create_folder (normalize dst entry.relative_path)])

/-- Loop body of `sync`'s deletion phase. -/
def sync_delete_step (dst_snapshot : Snapshot) (dry : Bool)
    (path_key : String) : List Event × List Action :=
  match dst_snapshot.lookup path_key with
  | none => ([], [])
  | some entry =>
      ([Event.step 1 ("R-> Delete " ++ entry.relative_path)],
       if dry then []
       else if entry.isfile then [Action.remove_file entry.path]
       else [Action.remove_folder entry.path])

/-- Loop body of `sync`'s replacement phase. -/
def sync_replace_step (src_snapshot dst_snapshot : Snapshot) (dry : Bool)
    (path_key : String) : List Event × List Action :=
  match src_snapshot.lookup path_key, dst_snapshot.lookup path_key with
  | some src_entry, some dst_entry =>
      ([Event.step 1 ("R-> Replace " ++ dst_entry.relative_path)],
       if dry then []
       else if src_entry.isfile then
         [Action.copy_file src_entry.path dst_entry.path]
       else [])
  | _, _ => ([], [])

/-- Loop body of `sync_bidirectional`'s phase copying `right_only` entries
from `dst` back to `src`. -/
def bidir_copy_step (dst_snapshot : Snapshot) (src : String) (dry : Bool)
    (path_key : String) : List Event × List Action :=
  match dst_snapshot.lookup path_key with
  | none => ([], [])
  | some entry =>
      ([Event.step 1 ("<-L Copy " ++ entry.relative_path)],
       if dry then []
       else if entry.isfile then
         [Action.copy_file entry.path (normalize src entry.relative_path)]
       else
         [Action.create_folder (normalize src entry.relative_path)])

/-- Loop body of `sync_bidirectional`'s replacement phase: strict
`src_entry.mtime > dst_entry.mtime` sends the source version right, anything
else (ties included) sends the destination version left. -/
def bidir_replace_step (src_snapshot dst_snapshot : Snapshot) (dry : Bool)
    (path_key : String) : List Event × List Action :=
  match src_snapshot.lookup path_key, dst_snapshot.lookup path_key with
  | some src_entry, some dst_entry =>
      if dst_entry.mtime < src_entry.mtime then
        ([Event.step 1 ("R-> Replace " ++ dst_entry.relative_path)],
         if dry then []
         else if src_entry.isfile then
           [Action.copy_file src_entry.path dst_entry.path]
         else [])
      else
        ([Event.step 1 ("<-L Replace " ++ src_entry.relative_path)],
         if dry then []
         else if dst_entry.isfile then
           [Action.copy_file dst_entry.path src_entry.path]
         else [])
  | _, _ => ([], [])

/-- `number_of_operations` as computed by `sync`. -/
def sync_total (src_snapshot dst_snapshot : Snapshot)
    (replace_changed delete_files : Bool) : Nat :=
  (diff src_snapshot dst_snapshot).left_only.length
    + (if delete_files then (diff src_snapshot dst_snapshot).right_only.length else 0)
    + (if replace_changed then (diff src_snapshot dst_snapshot).changed.length else 0)

/-- `number_of_operations` as computed by `sync_bidirectional`. -/
def bidirectional_total (src_snapshot dst_snapshot : Snapshot)
    (replace_changed : Bool) : Nat :=
  (diff src_snapshot dst_snapshot).left_only.length
    + (diff src_snapshot dst_snapshot).right_only.length
    + (if replace_changed then (diff src_snapshot dst_snapshot).changed.length else 0)

/-- `sync(src, dst, replace_changed, delete_files, dry, reporter)` after the
two snapshots have been taken: `src` and `dst` are the normalized root paths
and `src_snapshot`, `dst_snapshot` the snapshots `take` produced for them.
Returns the trace of reporter calls and the trace of filesystem actions. -/
def sync (src dst : String) (src_snapshot dst_snapshot : Snapshot)
    (replace_changed delete_files dry : Bool) : List Event × List Action :=
  let snapshot_diff := diff src_snapshot dst_snapshot
  let number_of_operations := sync_total src_snapshot dst_snapshot replace_changed delete_files
  if number_of_operations ≠ 0 then
    let phase1 := run_phase (sync_copy_step src_snapshot dst dry) snapshot_diff.left_only
    let phase2 :=
      if delete_files then
        run_phase (sync_delete_step dst_snapshot dry) (depth_sort snapshot_diff.right_only)
      else ([], [])
    let phase3 :=
      if replace_changed then
        run_phase (sync_replace_step src_snapshot dst_snapshot dry) snapshot_diff.changed
      else ([], [])
    (Event.set_total number_of_operations ::
       Event.start (src ++ " --> " ++ dst) ::
       Event.info ("Syncing " ++ toString number_of_operations ++ " files.") ::
       (phase1.1 ++ phase2.1 ++ phase3.1 ++ [Event.done "Done!"]),
     phase1.2 ++ phase2.2 ++ phase3.2)
  else
    ([Event.set_total number_of_operations, Event.start (src ++ " --> " ++ dst),
      Event.done "Done! Nothing to sync."], [])

/-- `sync_bidirectional(src, dst, replace_changed, dry, reporter)` after the
two snapshots have been taken, in the same style as `sync`. -/
def sync_bidirectional (src dst : String) (src_snapshot dst_snapshot : Snapshot)
    (replace_changed dry : Bool) : List Event × List Action :=
  let snapshot_diff := diff src_snapshot dst_snapshot
  let number_of_operations := bidirectional_total src_snapshot dst_snapshot replace_changed
  if number_of_operations ≠ 0 then
    let phase1 := run_phase (sync_copy_step src_snapshot dst dry) snapshot_diff.left_only
    let phase2 := run_phase (bidir_copy_step dst_snapshot src dry) snapshot_diff.right_only
    let phase3 :=
      if replace_changed then
        run_phase (bidir_replace_step src_snapshot dst_snapshot dry) snapshot_diff.changed
      else ([], [])
    (Event.set_total number_of_operations ::
       Event.start (src ++ " <-> " ++ dst) ::
       Event.info ("Syncing " ++ toString number_of_operations ++ " files.") ::
       (phase1.1 ++ phase2.1 ++ phase3.1 ++ [Event.done "Done!"]),
     phase1.2 ++ phase2.2 ++ phase3.2)
  else
    ([Event.set_total number_of_operations, Event.start (src ++ " <-> " ++ dst),
      Event.done "Done! Nothing to sync."], [])

/-- Sum of the amounts carried by the `step` events of a trace. -/
def step_sum : List Event → Nat
  | [] => 0
  | Event.step amount _ :: es => amount + step_sum es
  | _ :: es => step_sum es

theorem classify_eq (prev_snapshot next_snapshot : Snapshot) (d : SnapshotDiff)
    (k : String) :
    classify prev_snapshot next_snapshot d k =
      { left_only := d.left_only ++
          (if left_cond prev_snapshot next_snapshot k then [k] else [])
        right_only := d.right_only ++
          (if right_cond prev_snapshot next_snapshot k then [k] else [])
        changed := d.changed ++
          (if changed_cond prev_snapshot next_snapshot k then [k] else [])
        common := d.common ++
          (if common_cond prev_snapshot next_snapshot k then [k] else []) } := by
  unfold classify left_cond right_cond changed_cond common_cond
  rcases hp : prev_snapshot.lookup k with _ | pe <;>
    rcases hn : next_snapshot.lookup k with _ | ne <;>
      simp [Option.isSome, Option.isNone]
  by_cases hm : ne.mtime = pe.mtime
  · simp [hm]
  · by_cases hf : ne.isfile <;> simp [hm, hf]

theorem foldl_classify_eq (prev_snapshot next_snapshot : Snapshot)
    (ks : List String) (d : SnapshotDiff) :
    ks.foldl (classify prev_snapshot next_snapshot) d =
      { left_only := d.left_only ++ ks.filter (left_cond prev_snapshot next_snapshot)
        right_only := d.right_only ++ ks.filter (right_cond prev_snapshot next_snapshot)
        changed := d.changed ++ ks.filter (changed_cond prev_snapshot next_snapshot)
        common := d.common ++ ks.filter (common_cond prev_snapshot next_snapshot) } := by
  induction ks generalizing d with
  | nil => simp
  | cons k ks ih =>
      rw [List.foldl_cons, ih, classify_eq]
      by_cases h1 : left_cond prev_snapshot next_snapshot k <;>
        by_cases h2 : right_cond prev_snapshot next_snapshot k <;>
          by_cases h3 : changed_cond prev_snapshot next_snapshot k <;>
            by_cases h4 : common_cond prev_snapshot next_snapshot k <;>
              simp [h1, h2, h3, h4, List.filter_cons]

/-- `diff` expressed as four filters of the combined key list. -/
theorem diff_eq_filters (prev_snapshot next_snapshot : Snapshot) :
    diff prev_snapshot next_snapshot =
      { left_only := (combined_keys prev_snapshot next_snapshot).filter
          (left_cond prev_snapshot next_snapshot)
        right_only := (combined_keys prev_snapshot next_snapshot).filter
          (right_cond prev_snapshot next_snapshot)
        changed := (combined_keys prev_snapshot next_snapshot).filter
          (changed_cond prev_snapshot next_snapshot)
        common := (combined_keys prev_snapshot next_snapshot).filter
          (common_cond prev_snapshot next_snapshot) } := by
  unfold diff
  rw [foldl_classify_eq]
  simp

theorem lookup_isSome_iff_mem_keys (s : Snapshot) (k : String) :
    (s.lookup k).isSome = true ↔ k ∈ keys s := by
  induction s with
  | nil => simp [keys]
  | cons p s ih =>
      rcases p with ⟨a, e⟩
      by_cases h : k = a
      · subst h
        simp [List.lookup, keys]
      · have hne : (k == a) = false := beq_false_of_ne h
        simp [List.lookup, hne, keys, h, ih]

theorem mem_combined_keys (prev_snapshot next_snapshot : Snapshot) (k : String) :
    k ∈ combined_keys prev_snapshot next_snapshot ↔
      k ∈ keys prev_snapshot ∨ k ∈ keys next_snapshot := by
  simp [combined_keys]

theorem mem_combined_keys_lookup (prev_snapshot next_snapshot : Snapshot) (k : String) :
    k ∈ combined_keys prev_snapshot next_snapshot ↔
      (prev_snapshot.lookup k).isSome = true ∨ (next_snapshot.lookup k).isSome = true := by
  rw [mem_combined_keys, lookup_isSome_iff_mem_keys, lookup_isSome_iff_mem_keys]

theorem mem_left_only_iff (a b : Snapshot) (k : String) :
    k ∈ (diff a b).left_only ↔ left_cond a b k = true := by
  rw [diff_eq_filters]
  simp only [List.mem_filter, mem_combined_keys_lookup]
  constructor
  · exact fun h => h.2
  · intro h
    refine ⟨Or.inl ?_, h⟩
    unfold left_cond at h
    exact (Bool.and_eq_true _ _).mp h |>.1

theorem mem_right_only_iff (a b : Snapshot) (k : String) :
    k ∈ (diff a b).right_only ↔ right_cond a b k = true := by
  rw [diff_eq_filters]
  simp only [List.mem_filter, mem_combined_keys_lookup]
  constructor
  · exact fun h => h.2
  · intro h
    refine ⟨Or.inr ?_, h⟩
    unfold right_cond at h
    exact (Bool.and_eq_true _ _).mp h |>.2

theorem changed_cond_isSome (a b : Snapshot) (k : String)
    (h : changed_cond a b k = true) : (a.lookup k).isSome = true := by
  unfold changed_cond at h
  rcases hp : a.lookup k with _ | pe <;> rcases hn : b.lookup k with _ | ne <;>
    simp [hp, hn] at h ⊢

theorem common_cond_isSome (a b : Snapshot) (k : String)
    (h : common_cond a b k = true) : (a.lookup k).isSome = true := by
  unfold common_cond at h
  rcases hp : a.lookup k with _ | pe <;> rcases hn : b.lookup k with _ | ne <;>
    simp [hp, hn] at h ⊢

theorem mem_changed_iff (a b : Snapshot) (k : String) :
    k ∈ (diff a b).changed ↔ changed_cond a b k = true := by
  rw [diff_eq_filters]
  simp only [List.mem_filter, mem_combined_keys_lookup]
  exact ⟨fun h => h.2, fun h => ⟨Or.inl (changed_cond_isSome a b k h), h⟩⟩

theorem mem_common_iff (a b : Snapshot) (k : String) :
    k ∈ (diff a b).common ↔ common_cond a b k = true := by
  rw [diff_eq_filters]
  simp only [List.mem_filter, mem_combined_keys_lookup]
  exact ⟨fun h => h.2, fun h => ⟨Or.inl (common_cond_isSome a b k h), h⟩⟩

/-- Exactly one of the five conditions (the four classes plus "dropped")
holds for a key present in either snapshot, and none for other keys. -/
theorem conds_cover (a b : Snapshot) (k : String) :
    (left_cond a b k || right_cond a b k || changed_cond a b k ||
      common_cond a b k || dropped_cond a b k) =
      ((a.lookup k).isSome || (b.lookup k).isSome) := by
  unfold left_cond right_cond changed_cond common_cond dropped_cond
  rcases hp : a.lookup k with _ | pe <;> rcases hn : b.lookup k with _ | ne <;> simp
  by_cases hm : ne.mtime = pe.mtime
  · simp [hm]
  · by_cases hf : ne.isfile <;> simp [hm, hf]

theorem conds_exclusive (a b : Snapshot) (k : String) :
    (left_cond a b k && right_cond a b k) = false ∧
    (left_cond a b k && changed_cond a b k) = false ∧
    (left_cond a b k && common_cond a b k) = false ∧
    (right_cond a b k && changed_cond a b k) = false ∧
    (right_cond a b k && common_cond a b k) = false ∧
    (changed_cond a b k && common_cond a b k) = false ∧
    (left_cond a b k && dropped_cond a b k) = false ∧
    (right_cond a b k && dropped_cond a b k) = false ∧
    (changed_cond a b k && dropped_cond a b k) = false ∧
    (common_cond a b k && dropped_cond a b k) = false := by
  unfold left_cond right_cond changed_cond common_cond dropped_cond
  rcases hp : a.lookup k with _ | pe <;> rcases hn : b.lookup k with _ | ne <;> simp
  by_cases hm : ne.mtime = pe.mtime
  · simp [hm]
  · by_cases hf : ne.isfile <;> simp [hm, hf]

theorem step_sum_append (l1 l2 : List Event) :
    step_sum (l1 ++ l2) = step_sum l1 + step_sum l2 := by
  induction l1 with
  | nil => simp [step_sum]
  | cons e es ih => cases e <;> simp [step_sum, ih] <;> omega

theorem run_phase_fst_congr (f g : String → List Event × List Action) :
    ∀ ks : List String, (∀ k ∈ ks, (f k).1 = (g k).1) →
      (run_phase f ks).1 = (run_phase g ks).1
  | [], _ => rfl
  | k :: ks, h => by
      have ih := run_phase_fst_congr f g ks fun x hx => h x (List.mem_cons_of_mem _ hx)
      simp only [run_phase, List.flatMap_cons] at ih ⊢
      rw [h k (List.mem_cons_self _ _), ih]

theorem run_phase_snd_nil (f : String → List Event × List Action) :
    ∀ ks : List String, (∀ k ∈ ks, (f k).2 = []) → (run_phase f ks).2 = []
  | [], _ => rfl
  | k :: ks, h => by
      have ih := run_phase_snd_nil f ks fun x hx => h x (List.mem_cons_of_mem _ hx)
      simp only [run_phase, List.flatMap_cons] at ih ⊢
      rw [h k (List.mem_cons_self _ _), ih]
      rfl

theorem run_phase_step_sum (f : String → List Event × List Action) :
    ∀ ks : List String, (∀ k ∈ ks, step_sum (f k).1 = 1) →
      step_sum (run_phase f ks).1 = ks.length
  | [], _ => rfl
  | k :: ks, h => by
      have ih := run_phase_step_sum f ks fun x hx => h x (List.mem_cons_of_mem _ hx)
      simp only [run_phase, List.flatMap_cons] at ih ⊢
      rw [step_sum_append, h k (List.mem_cons_self _ _), ih]
      simp [Nat.add_comm]

theorem run_phase_mem_snd (f : String → List Event × List Action)
    (ks : List String) (k : String) (a : Action)
    (hk : k ∈ ks) (ha : a ∈ (f k).2) : a ∈ (run_phase f ks).2 := by
  simp only [run_phase, List.mem_flatMap]
  exact ⟨k, hk, ha⟩

theorem sync_copy_step_fst (s : Snapshot) (d : String) (dry : Bool) (k : String) :
    (sync_copy_step s d dry k).1 = (sync_copy_step s d false k).1 := by
  cases hl : s.lookup k <;> simp [sync_copy_step, hl]

theorem sync_copy_step_dry (s : Snapshot) (d : String) (k : String) :
    (sync_copy_step s d true k).2 = [] := by
  cases hl : s.lookup k <;> simp [sync_copy_step, hl]

theorem sync_copy_step_sum (s : Snapshot) (d : String) (dry : Bool) (k : String)
    (h : (s.lookup k).isSome = true) :
    step_sum (sync_copy_step s d dry k).1 = 1 := by
  cases hl : s.lookup k with
  | none => rw [hl] at h; cases h
  | some e => simp [sync_copy_step, hl, step_sum]

theorem sync_delete_step_fst (s : Snapshot) (dry : Bool) (k : String) :
    (sync_delete_step s dry k).1 = (sync_delete_step s false k).1 := by
  cases hl : s.lookup k <;> simp [sync_delete_step, hl]

theorem sync_delete_step_dry (s : Snapshot) (k : String) :
    (sync_delete_step s true k).2 = [] := by
  cases hl : s.lookup k <;> simp [sync_delete_step, hl]

theorem sync_delete_step_sum (s : Snapshot) (dry : Bool) (k : String)
    (h : (s.lookup k).isSome = true) :
    step_sum (sync_delete_step s dry k).1 = 1 := by
  cases hl : s.lookup k with
  | none => rw [hl] at h; cases h
  | some e => simp [sync_delete_step, hl, step_sum]

theorem sync_replace_step_fst (a b : Snapshot) (dry : Bool) (k : String) :
    (sync_replace_step a b dry k).1 = (sync_replace_step a b false k).1 := by
  cases hp : a.lookup k <;> cases hn : b.lookup k <;>
    simp [sync_replace_step, hp, hn]

theorem sync_replace_step_dry (a b : Snapshot) (k : String) :
    (sync_replace_step a b true k).2 = [] := by
  cases hp : a.lookup k <;> cases hn : b.lookup k <;>
    simp [sync_replace_step, hp, hn]

theorem sync_replace_step_sum (a b : Snapshot) (dry : Bool) (k : String)
    (hp : (a.lookup k).isSome = true) (hn : (b.lookup k).isSome = true) :
    step_sum (sync_replace_step a b dry k).1 = 1 := by
  cases hp2 : a.lookup k with
  | none => rw [hp2] at hp; cases hp
  | some pe =>
      cases hn2 : b.lookup k with
      | none => rw [hn2] at hn; cases hn
      | some ne => simp [sync_replace_step, hp2, hn2, step_sum]

theorem bidir_copy_step_fst (s : Snapshot) (d : String) (dry : Bool) (k : String) :
    (bidir_copy_step s d dry k).1 = (bidir_copy_step s d false k).1 := by
  cases hl : s.lookup k <;> simp [bidir_copy_step, hl]

theorem bidir_copy_step_dry (s : Snapshot) (d : String) (k : String) :
    (bidir_copy_step s d true k).2 = [] := by
  cases hl : s.lookup k <;> simp [bidir_copy_step, hl]

theorem bidir_copy_step_sum (s : Snapshot) (d : String) (dry : Bool) (k : String)
    (h : (s.lookup k).isSome = true) :
    step_sum (bidir_copy_step s d dry k).1 = 1 := by
  cases hl : s.lookup k with
  | none => rw [hl] at h; cases h
  | some e => simp [bidir_copy_step, hl, step_sum]

theorem bidir_replace_step_fst (a b : Snapshot) (dry : Bool) (k : String) :
    (bidir_replace_step a b dry k).1 = (bidir_replace_step a b false k).1 := by
  cases hp : a.lookup k <;> cases hn : b.lookup k <;>
    simp [bidir_replace_step, hp, hn]
  split <;> simp

theorem bidir_replace_step_dry (a b : Snapshot) (k : String) :
    (bidir_replace_step a b true k).2 = [] := by
  cases hp : a.lookup k <;> cases hn : b.lookup k <;>
    simp [bidir_replace_step, hp, hn]
  split <;> simp

theorem bidir_replace_step_sum (a b : Snapshot) (dry : Bool) (k : String)
    (hp : (a.lookup k).isSome = true) (hn : (b.lookup k).isSome = true) :
    step_sum (bidir_replace_step a b dry k).1 = 1 := by
  cases hp2 : a.lookup k with
  | none => rw [hp2] at hp; cases hp
  | some pe =>
      cases hn2 : b.lookup k with
      | none => rw [hn2] at hn; cases hn
      | some ne =>
          simp only [bidir_replace_step, hp2, hn2]
          split <;> simp [step_sum]

theorem insert_by_depth_perm (x : String) :
    ∀ l : List String, (insert_by_depth x l).Perm (x :: l)
  | [] => List.Perm.refl _
  | y :: ys => by
      unfold insert_by_depth
      by_cases h : sep_count y ≤ sep_count x
      · rw [if_pos h]
      · rw [if_neg h]
        exact ((insert_by_depth_perm x ys).cons y).trans (List.Perm.swap x y ys)

theorem depth_sort_perm : ∀ l : List String, (depth_sort l).Perm l
  | [] => List.Perm.refl _
  | x :: xs =>
      (insert_by_depth_perm x (depth_sort xs)).trans ((depth_sort_perm xs).cons x)

theorem sorted_insert_by_depth (x : String) :
    ∀ l : List String, l.Sorted depth_ge → (insert_by_depth x l).Sorted depth_ge
  | [], _ => by simp [insert_by_depth]
  | y :: ys, h => by
      rw [List.sorted_cons] at h
      obtain ⟨hy, hys⟩ := h
      unfold insert_by_depth
      by_cases hc : sep_count y ≤ sep_count x
      · rw [if_pos hc, List.sorted_cons]
        refine ⟨?_, List.sorted_cons.mpr ⟨hy, hys⟩⟩
        intro b hb
        rcases List.mem_cons.mp hb with rfl | hb
        · exact hc
        · exact le_trans (hy b hb) hc
      · rw [if_neg hc, List.sorted_cons]
        refine ⟨?_, sorted_insert_by_depth x ys hys⟩
        intro b hb
        have hb2 : b ∈ x :: ys := (insert_by_depth_perm x ys).mem_iff.mp hb
        rcases List.mem_cons.mp hb2 with rfl | hb3
        · exact le_of_lt (lt_of_not_le hc)
        · exact hy b hb3

theorem depth_sort_sorted : ∀ l : List String, (depth_sort l).Sorted depth_ge
  | [] => by simp [depth_sort]
  | x :: xs => sorted_insert_by_depth x _ (depth_sort_sorted xs)

theorem sep_count_append (a b : String) :
    sep_count (a ++ b) = sep_count a + sep_count b := by
  simp [sep_count, String.data_append, List.countP_append]

theorem sep_count_lt_of_ancestor (a p : String) (h : is_ancestor a p) :
    sep_count a < sep_count p := by
  obtain ⟨s, rfl⟩ := h
  rw [sep_count_append, sep_count_append]
  have h1 : sep_count "/" = 1 := by decide
  omega

/-- C1 (amended): the four lists returned by `diff(A, B)` are pairwise
disjoint, and their union equals `keys(A) ∪ keys(B)` minus the keys present
in both snapshots whose mtimes differ and whose entry in `B` is a directory
— those keys are dropped from the partition entirely, so not every key
present in either snapshot is placed in one of the four classes. -/
theorem C1_diff_partition (a b : Snapshot) :
    ((diff a b).left_only.Disjoint (diff a b).right_only ∧
     (diff a b).left_only.Disjoint (diff a b).changed ∧
     (diff a b).left_only.Disjoint (diff a b).common ∧
     (diff a b).right_only.Disjoint (diff a b).changed ∧
     (diff a b).right_only.Disjoint (diff a b).common ∧
     (diff a b).changed.Disjoint (diff a b).common) ∧
    (∀ k : String,
      (k ∈ (diff a b).left_only ∨ k ∈ (diff a b).right_only ∨
       k ∈ (diff a b).changed ∨ k ∈ (diff a b).common) ↔
      (k ∈ combined_keys a b ∧ dropped_cond a b k = false)) := by
  constructor
  · refine ⟨?_, ?_, ?_, ?_, ?_, ?_⟩
    · intro k hk1 hk2
      rw [mem_left_only_iff] at hk1
      rw [mem_right_only_iff] at hk2
      have h := (conds_exclusive a b k).1
      rw [hk1, hk2] at h
      simp at h
    · intro k hk1 hk2
      rw [mem_left_only_iff] at hk1
      rw [mem_changed_iff] at hk2
      have h := (conds_exclusive a b k).2.1
      rw [hk1, hk2] at h
      simp at h
    · intro k hk1 hk2
      rw [mem_left_only_iff] at hk1
      rw [mem_common_iff] at hk2
      have h := (conds_exclusive a b k).2.2.1
      rw [hk1, hk2] at h
      simp at h
    · intro k hk1 hk2
      rw [mem_right_only_iff] at hk1
      rw [mem_changed_iff] at hk2
      have h := (conds_exclusive a b k).2.2.2.1
      rw [hk1, hk2] at h
      simp at h
    · intro k hk1 hk2
      rw [mem_right_only_iff] at hk1
      rw [mem_common_iff] at hk2
      have h := (conds_exclusive a b k).2.2.2.2.1
      rw [hk1, hk2] at h
      simp at h
    · intro k hk1 hk2
      rw [mem_changed_iff] at hk1
      rw [mem_common_iff] at hk2
      have h := (conds_exclusive a b k).2.2.2.2.2.1
      rw [hk1, hk2] at h
      simp at h
  · intro k
    rw [mem_left_only_iff, mem_right_only_iff, mem_changed_iff, mem_common_iff,
        mem_combined_keys_lookup]
    have hcover := conds_cover a b k
    have hex := conds_exclusive a b k
    revert hcover hex
    generalize left_cond a b k = l
    generalize right_cond a b k = r
    generalize changed_cond a b k = c
    generalize common_cond a b k = co
    generalize dropped_cond a b k = dr
    generalize (a.lookup k).isSome = s1
    generalize (b.lookup k).isSome = s2
    revert l r c co dr s1 s2
    decide

/-- C1 counterexample: two snapshots both holding the key `"d"` as a
directory entry with differing mtimes.  The key is in the combined key set
but `diff` returns four empty lists, so the union of the four classes is
not `keys(A) ∪ keys(B)`. -/
theorem C1_diff_partition_cex :
    "d" ∈ combined_keys
        [("d", ⟨"S/d", "d", false, 1⟩)] [("d", ⟨"D/d", "d", false, 2⟩)] ∧
    diff [("d", ⟨"S/d", "d", false, 1⟩)] [("d", ⟨"D/d", "d", false, 2⟩)]
      = ⟨[], [], [], []⟩ := by
  decide

/-- Witness for C1: the union characterization instantiated at the concrete
snapshot pair of the counterexample and the key `"d"`. -/
theorem C1_diff_partition_witness :
    ("d" ∈ (diff [("d", ⟨"S/d", "d", false, 1⟩)]
        [("d", ⟨"D/d", "d", false, 2⟩)]).left_only ∨
     "d" ∈ (diff [("d", ⟨"S/d", "d", false, 1⟩)]
        [("d", ⟨"D/d", "d", false, 2⟩)]).right_only ∨
     "d" ∈ (diff [("d", ⟨"S/d", "d", false, 1⟩)]
        [("d", ⟨"D/d", "d", false, 2⟩)]).changed ∨
     "d" ∈ (diff [("d", ⟨"S/d", "d", false, 1⟩)]
        [("d", ⟨"D/d", "d", false, 2⟩)]).common) ↔
    ("d" ∈ combined_keys [("d", ⟨"S/d", "d", false, 1⟩)]
        [("d", ⟨"D/d", "d", false, 2⟩)] ∧
     dropped_cond [("d", ⟨"S/d", "d", false, 1⟩)]
        [("d", ⟨"D/d", "d", false, 2⟩)] "d" = false) :=
  (C1_diff_partition [("d", ⟨"S/d", "d", false, 1⟩)]
    [("d", ⟨"D/d", "d", false, 2⟩)]).2 "d"

/-- C2 (amended): a key present in both snapshots as a directory entry with
differing mtimes is placed in none of the four classes — never `changed`,
but also not `common`: `diff` drops it from the partition. -/
theorem C2_directory_changed_dropped (a b : Snapshot) (k : String)
    (pe ne : Entry) (hp : a.lookup k = some pe) (hn : b.lookup k = some ne)
    (hpf : pe.isfile = false) (hnf : ne.isfile = false)
    (hm : ne.mtime ≠ pe.mtime) :
    k ∉ (diff a b).changed ∧ k ∉ (diff a b).common ∧
    k ∉ (diff a b).left_only ∧ k ∉ (diff a b).right_only := by
  refine ⟨?_, ?_, ?_, ?_⟩
  · simp [mem_changed_iff, changed_cond, hp, hn, hnf]
  · simp [mem_common_iff, common_cond, hp, hn, hm]
  · simp [mem_left_only_iff, left_cond, hn]
  · simp [mem_right_only_iff, right_cond, hp]

/-- C2 counterexample: the key `"d"` is a directory in both snapshots with
differing mtimes, yet `diff` does not classify it as `common` (it is not
classified at all), contradicting the claim that it lands in `common`. -/
theorem C2_directory_changed_dropped_cex :
    (([("d", ⟨"S/d", "d", false, 1⟩)] : Snapshot).lookup "d"
        = some ⟨"S/d", "d", false, 1⟩) ∧
    (([("d", ⟨"D/d", "d", false, 2⟩)] : Snapshot).lookup "d"
        = some ⟨"D/d", "d", false, 2⟩) ∧
    "d" ∉ (diff [("d", ⟨"S/d", "d", false, 1⟩)]
        [("d", ⟨"D/d", "d", false, 2⟩)]).common := by
  decide

/-- Witness for C2: the amended statement instantiated at the concrete
directory-in-both snapshot pair. -/
theorem C2_directory_changed_dropped_witness :
    "d" ∉ (diff [("d", ⟨"S/d", "d", false, 1⟩)]
        [("d", ⟨"D/d", "d", false, 2⟩)]).changed ∧
    "d" ∉ (diff [("d", ⟨"S/d", "d", false, 1⟩)]
        [("d", ⟨"D/d", "d", false, 2⟩)]).common ∧
    "d" ∉ (diff [("d", ⟨"S/d", "d", false, 1⟩)]
        [("d", ⟨"D/d", "d", false, 2⟩)]).left_only ∧
    "d" ∉ (diff [("d", ⟨"S/d", "d", false, 1⟩)]
        [("d", ⟨"D/d", "d", false, 2⟩)]).right_only :=
  C2_directory_changed_dropped _ _ "d" ⟨"S/d", "d", false, 1⟩
    ⟨"D/d", "d", false, 2⟩ (by decide) (by decide) rfl rfl (by decide)

/-- C10: `diff` is mirror-symmetric on the unique sides — the keys of
`diff(A, B).left_only` are exactly those of `diff(B, A).right_only`, and
symmetrically for the other pair. -/
theorem C10_diff_mirror (a b : Snapshot) (k : String) :
    (k ∈ (diff a b).left_only ↔ k ∈ (diff b a).right_only) ∧
    (k ∈ (diff a b).right_only ↔ k ∈ (diff b a).left_only) := by
  rw [mem_left_only_iff, mem_right_only_iff, mem_right_only_iff,
      mem_left_only_iff]
  unfold left_cond right_cond
  constructor
  · rw [Bool.and_comm]
  · rw [Bool.and_comm]

/-- C8 (amended): `depth_sort` orders by separator count descending and is a
permutation of its input; consequently it never places a path before one of
its own descendants — equivalently, an ancestor never precedes a path it is
an ancestor of.  (The claim's stated direction is exactly backwards: the
deepest-first order deliberately places every path before its ancestors.) -/
theorem C8_depth_sort_order (l : List String) :
    (depth_sort l).Sorted depth_ge ∧
    (depth_sort l).Perm l ∧
    (∀ i j : Nat, ∀ a p : String, i < j →
      (depth_sort l)[i]? = some a → (depth_sort l)[j]? = some p →
      ¬ is_ancestor a p) := by
  refine ⟨depth_sort_sorted l, depth_sort_perm l, ?_⟩
  intro i j a p hij hi hj hanc
  have hlt := sep_count_lt_of_ancestor a p hanc
  obtain ⟨hi2, hieq⟩ := List.getElem?_eq_some_iff.mp hi
  obtain ⟨hj2, hjeq⟩ := List.getElem?_eq_some_iff.mp hj
  have hrel := (depth_sort_sorted l).rel_get_of_lt
    (a := ⟨i, hi2⟩) (b := ⟨j, hj2⟩) (Fin.mk_lt_mk.mpr hij)
  have hga : (depth_sort l).get ⟨i, hi2⟩ = a := by
    simpa [List.get_eq_getElem] using hieq
  have hgp : (depth_sort l).get ⟨j, hj2⟩ = p := by
    simpa [List.get_eq_getElem] using hjeq
  rw [hga, hgp] at hrel
  exact absurd hlt (not_lt.mpr hrel)

/-- C8 counterexample: on input `["a", "a/b"]` the sorted output places the
path `"a/b"` (index 0) before its own ancestor `"a"` (index 1), so the claim
as stated — "never places a path before one of its own ancestors" — is
false. -/
theorem C8_depth_sort_cex :
    depth_sort ["a", "a/b"] = ["a/b", "a"] ∧
    (depth_sort ["a", "a/b"])[0]? = some "a/b" ∧
    (depth_sort ["a", "a/b"])[1]? = some "a" ∧
    is_ancestor "a" "a/b" :=
  ⟨by decide, by decide, by decide, ⟨"b", rfl⟩⟩

/-- Witness for C8: the earlier element of the sorted output of
`["a", "a/b"]` is not an ancestor of the later one. -/
theorem C8_depth_sort_order_witness : ¬ is_ancestor "a/b" "a" :=
  (C8_depth_sort_order ["a", "a/b"]).2.2 0 1 "a/b" "a" (by decide)
    (by decide) (by decide)

/-- C3: whatever the OS calls do, `remove_file`, `remove_folder` and
`create_folder` return normally (their failures are swallowed), while a
failure of `copy_file`'s actual copy step propagates to the caller — and a
successful copy returns normally. -/
theorem C3_failure_policy :
    (∀ r, (remove_file r).1 = PrimResult.ok) ∧
    (∀ l r, (remove_folder l r).1 = PrimResult.ok) ∧
    (∀ d m, (create_folder d m).1 = PrimResult.ok) ∧
    (∀ d m e, (copy_file d m (PrimResult.error e)).1 = PrimResult.error e) ∧
    (∀ d m, (copy_file d m PrimResult.ok).1 = PrimResult.ok) := by
  refine ⟨?_, ?_, ?_, ?_, ?_⟩
  · intro r; cases r <;> rfl
  · intro l r
    cases l with
    | error e => rfl
    | ok entries =>
        cases r <;> by_cases h : entries.isEmpty <;> simp [remove_folder, h]
  · intro d m; cases d <;> cases m <;> simp [create_folder]
  · intro d m e; rfl
  · intro d m; rfl

theorem step_sum_set_total (n : Nat) (es : List Event) :
    step_sum (Event.set_total n :: es) = step_sum es := rfl

theorem step_sum_start (m : String) (es : List Event) :
    step_sum (Event.start m :: es) = step_sum es := rfl

theorem step_sum_info (m : String) (es : List Event) :
    step_sum (Event.info m :: es) = step_sum es := rfl

theorem step_sum_done (m : String) (es : List Event) :
    step_sum (Event.done m :: es) = step_sum es := rfl

theorem left_only_lookup_isSome (a b : Snapshot) (k : String)
    (hk : k ∈ (diff a b).left_only) : (a.lookup k).isSome = true := by
  rw [mem_left_only_iff] at hk
  unfold left_cond at hk
  exact ((Bool.and_eq_true _ _).mp hk).1

theorem right_only_lookup_isSome (a b : Snapshot) (k : String)
    (hk : k ∈ (diff a b).right_only) : (b.lookup k).isSome = true := by
  rw [mem_right_only_iff] at hk
  unfold right_cond at hk
  exact ((Bool.and_eq_true _ _).mp hk).2

theorem changed_spec (a b : Snapshot) (k : String)
    (hk : k ∈ (diff a b).changed) :
    ∃ pe ne : Entry, a.lookup k = some pe ∧ b.lookup k = some ne ∧
      ne.mtime ≠ pe.mtime ∧ ne.isfile = true := by
  rw [mem_changed_iff] at hk
  unfold changed_cond at hk
  rcases hp : a.lookup k with _ | pe <;> rcases hn : b.lookup k with _ | ne <;>
    rw [hp, hn] at hk <;> simp at hk
  exact ⟨pe, ne, rfl, rfl, hk.1, hk.2⟩

theorem changed_lookups_isSome (a b : Snapshot) (k : String)
    (hk : k ∈ (diff a b).changed) :
    (a.lookup k).isSome = true ∧ (b.lookup k).isSome = true := by
  obtain ⟨pe, ne, hp, hn, _, _⟩ := changed_spec a b k hk
  rw [hp, hn]
  exact ⟨rfl, rfl⟩

theorem sync_events_dry (src dst : String) (a b : Snapshot) (rc df : Bool) :
    (sync src dst a b rc df true).1 = (sync src dst a b rc df false).1 := by
  simp only [sync]
  by_cases h : sync_total a b rc df = 0
  · rw [if_neg (not_not_intro h), if_neg (not_not_intro h)]
  · rw [if_pos h, if_pos h]
    have c1 := run_phase_fst_congr (sync_copy_step a dst true)
      (sync_copy_step a dst false) (diff a b).left_only
      fun k _ => sync_copy_step_fst a dst true k
    have c2 := run_phase_fst_congr (sync_delete_step b true)
      (sync_delete_step b false) (depth_sort (diff a b).right_only)
      fun k _ => sync_delete_step_fst b true k
    have c3 := run_phase_fst_congr (sync_replace_step a b true)
      (sync_replace_step a b false) (diff a b).changed
      fun k _ => sync_replace_step_fst a b true k
    cases df <;> cases rc <;> simp [c1, c2, c3]

theorem sync_actions_dry (src dst : String) (a b : Snapshot) (rc df : Bool) :
    (sync src dst a b rc df true).2 = [] := by
  simp only [sync]
  by_cases h : sync_total a b rc df = 0
  · rw [if_neg (not_not_intro h)]
  · rw [if_pos h]
    have n1 := run_phase_snd_nil (sync_copy_step a dst true)
      (diff a b).left_only fun k _ => sync_copy_step_dry a dst k
    have n2 := run_phase_snd_nil (sync_delete_step b true)
      (depth_sort (diff a b).right_only) fun k _ => sync_delete_step_dry b k
    have n3 := run_phase_snd_nil (sync_replace_step a b true)
      (diff a b).changed fun k _ => sync_replace_step_dry a b k
    cases df <;> cases rc <;> simp [n1, n2, n3]

theorem bidirectional_events_dry (src dst : String) (a b : Snapshot)
    (rc : Bool) :
    (sync_bidirectional src dst a b rc true).1
      = (sync_bidirectional src dst a b rc false).1 := by
  simp only [sync_bidirectional]
  by_cases h : bidirectional_total a b rc = 0
  · rw [if_neg (not_not_intro h), if_neg (not_not_intro h)]
  · rw [if_pos h, if_pos h]
    have c1 := run_phase_fst_congr (sync_copy_step a dst true)
      (sync_copy_step a dst false) (diff a b).left_only
      fun k _ => sync_copy_step_fst a dst true k
    have c2 := run_phase_fst_congr (bidir_copy_step b src true)
      (bidir_copy_step b src false) (diff a b).right_only
      fun k _ => bidir_copy_step_fst b src true k
    have c3 := run_phase_fst_congr (bidir_replace_step a b true)
      (bidir_replace_step a b false) (diff a b).changed
      fun k _ => bidir_replace_step_fst a b true k
    cases rc <;> simp [c1, c2, c3]

theorem bidirectional_actions_dry (src dst : String) (a b : Snapshot)
    (rc : Bool) :
    (sync_bidirectional src dst a b rc true).2 = [] := by
  simp only [sync_bidirectional]
  by_cases h : bidirectional_total a b rc = 0
  · rw [if_neg (not_not_intro h)]
  · rw [if_pos h]
    have n1 := run_phase_snd_nil (sync_copy_step a dst true)
      (diff a b).left_only fun k _ => sync_copy_step_dry a dst k
    have n2 := run_phase_snd_nil (bidir_copy_step b src true)
      (diff a b).right_only fun k _ => bidir_copy_step_dry b src k
    have n3 := run_phase_snd_nil (bidir_replace_step a b true)
      (diff a b).changed fun k _ => bidir_replace_step_dry a b k
    cases rc <;> simp [n1, n2, n3]

theorem sync_step_sum_eq (src dst : String) (a b : Snapshot)
    (rc df dry : Bool) :
    step_sum (sync src dst a b rc df dry).1 = sync_total a b rc df := by
  simp only [sync]
  by_cases h : sync_total a b rc df = 0
  · rw [if_neg (not_not_intro h), h]
    rfl
  · rw [if_pos h]
    have s1 : step_sum (run_phase (sync_copy_step a dst dry)
        (diff a b).left_only).1 = (diff a b).left_only.length :=
      run_phase_step_sum _ _ fun k hk =>
        sync_copy_step_sum a dst dry k (left_only_lookup_isSome a b k hk)
    have s2 : step_sum (run_phase (sync_delete_step b dry)
        (depth_sort (diff a b).right_only)).1
        = (diff a b).right_only.length := by
      rw [run_phase_step_sum _ _ fun k hk => sync_delete_step_sum b dry k
        (right_only_lookup_isSome a b k ((depth_sort_perm _).mem_iff.mp hk))]
      exact (depth_sort_perm _).length_eq
    have s3 : step_sum (run_phase (sync_replace_step a b dry)
        (diff a b).changed).1 = (diff a b).changed.length :=
      run_phase_step_sum _ _ fun k hk =>
        sync_replace_step_sum a b dry k (changed_lookups_isSome a b k hk).1
          (changed_lookups_isSome a b k hk).2
    rw [step_sum_set_total, step_sum_start, step_sum_info, step_sum_append,
        step_sum_append, step_sum_append]
    unfold sync_total
    cases df <;> cases rc <;> simp [s1, s2, s3, step_sum]

theorem bidirectional_step_sum_eq (src dst : String) (a b : Snapshot)
    (rc dry : Bool) :
    step_sum (sync_bidirectional src dst a b rc dry).1
      = bidirectional_total a b rc := by
  simp only [sync_bidirectional]
  by_cases h : bidirectional_total a b rc = 0
  · rw [if_neg (not_not_intro h), h]
    rfl
  · rw [if_pos h]
    have s1 : step_sum (run_phase (sync_copy_step a dst dry)
        (diff a b).left_only).1 = (diff a b).left_only.length :=
      run_phase_step_sum _ _ fun k hk =>
        sync_copy_step_sum a dst dry k (left_only_lookup_isSome a b k hk)
    have s2 : step_sum (run_phase (bidir_copy_step b src dry)
        (diff a b).right_only).1 = (diff a b).right_only.length :=
      run_phase_step_sum _ _ fun k hk =>
        bidir_copy_step_sum b src dry k (right_only_lookup_isSome a b k hk)
    have s3 : step_sum (run_phase (bidir_replace_step a b dry)
        (diff a b).changed).1 = (diff a b).changed.length :=
      run_phase_step_sum _ _ fun k hk =>
        bidir_replace_step_sum a b dry k (changed_lookups_isSome a b k hk).1
          (changed_lookups_isSome a b k hk).2
    rw [step_sum_set_total, step_sum_start, step_sum_info, step_sum_append,
        step_sum_append, step_sum_append]
    unfold bidirectional_total
    cases rc <;> simp [s1, s2, s3, step_sum]

/-- C5: in every run of `sync` that does not take the zero-operation
short-circuit, the sum of the amounts passed to `reporter.step` across the
three phases equals the total passed to `reporter.set_total`, namely
`|left_only| + (delete_files ? |right_only| : 0) + (replace_changed ?
|changed| : 0)`, regardless of the `dry` flag. -/
theorem C5_step_sum_total (src dst : String) (a b : Snapshot)
    (rc df dry : Bool) (h : sync_total a b rc df ≠ 0) :
    (sync src dst a b rc df dry).1.head?
        = some (Event.set_total (sync_total a b rc df)) ∧
    step_sum (sync src dst a b rc df dry).1 = sync_total a b rc df := by
  constructor
  · simp only [sync]
    rw [if_pos h]
    rfl
  · exact sync_step_sum_eq src dst a b rc df dry

/-- Witness for C5: one file only in the source, `delete_files` and
`replace_changed` both on, run dry — one step of amount 1 against a
reported total of 1. -/
theorem C5_step_sum_total_witness :
    (sync "S" "D" [("f", ⟨"S/f", "f", true, 1⟩)] [] true true true).1.head?
        = some (Event.set_total
            (sync_total [("f", ⟨"S/f", "f", true, 1⟩)] [] true true)) ∧
    step_sum (sync "S" "D" [("f", ⟨"S/f", "f", true, 1⟩)] [] true true true).1
        = sync_total [("f", ⟨"S/f", "f", true, 1⟩)] [] true true :=
  C5_step_sum_total "S" "D" [("f", ⟨"S/f", "f", true, 1⟩)] [] true true true
    (by decide)

/-- C6: with `dry = true`, `sync` and `sync_bidirectional` emit exactly the
reporter-call sequence of the `dry = false` run while issuing no filesystem
action at all, so both trees are left unchanged. -/
theorem C6_dry_run_neutral (src dst : String) (a b : Snapshot)
    (rc df : Bool) :
    (sync src dst a b rc df true).1 = (sync src dst a b rc df false).1 ∧
    (sync src dst a b rc df true).2 = [] ∧
    (sync_bidirectional src dst a b rc true).1
      = (sync_bidirectional src dst a b rc false).1 ∧
    (sync_bidirectional src dst a b rc true).2 = [] :=
  ⟨sync_events_dry src dst a b rc df, sync_actions_dry src dst a b rc df,
   bidirectional_events_dry src dst a b rc,
   bidirectional_actions_dry src dst a b rc⟩

/-- C7 (amended): when the computed total is zero, `sync` and
`sync_bidirectional` report `set_total 0`, `start`, then
`done("Done! Nothing to sync.")` — not `done("Nothing to sync")` — and
return with no further reporter calls and no filesystem action. -/
theorem C7_zero_short_circuit (src dst : String) (a b : Snapshot)
    (rc df dry : Bool) (h : sync_total a b rc df = 0)
    (h2 : bidirectional_total a b rc = 0) :
    sync src dst a b rc df dry =
      ([Event.set_total 0, Event.start (src ++ " --> " ++ dst),
        Event.done "Done! Nothing to sync."], []) ∧
    sync_bidirectional src dst a b rc dry =
      ([Event.set_total 0, Event.start (src ++ " <-> " ++ dst),
        Event.done "Done! Nothing to sync."], []) := by
  constructor
  · simp only [sync]
    rw [if_neg (not_not_intro h), h]
  · simp only [sync_bidirectional]
    rw [if_neg (not_not_intro h2), h2]

/-- C7 counterexample: on two empty trees the total is zero and the engines
do short-circuit, but the done message is `"Done! Nothing to sync."`, so no
`done("Nothing to sync")` event is ever reported. -/
theorem C7_zero_short_circuit_cex :
    sync_total ([] : Snapshot) ([] : Snapshot) false false = 0 ∧
    Event.done "Nothing to sync" ∉ (sync "S" "D" [] [] false false false).1 ∧
    bidirectional_total ([] : Snapshot) ([] : Snapshot) false = 0 ∧
    Event.done "Nothing to sync"
      ∉ (sync_bidirectional "S" "D" [] [] false false).1 := by
  decide

/-- Witness for C7: the amended short-circuit shape on two empty trees. -/
theorem C7_zero_short_circuit_witness :
    sync "S" "D" [] [] false false false =
      ([Event.set_total 0, Event.start ("S" ++ " --> " ++ "D"),
        Event.done "Done! Nothing to sync."], []) ∧
    sync_bidirectional "S" "D" [] [] false false =
      ([Event.set_total 0, Event.start ("S" ++ " <-> " ++ "D"),
        Event.done "Done! Nothing to sync."], []) :=
  C7_zero_short_circuit "S" "D" [] [] false false false (by decide) (by decide)

/-- C9: whenever `sync` or `sync_bidirectional` emits a `step` event, the
total it previously passed to `set_total` — always the first reporter call —
is strictly positive, so `Reporter.step`'s `amount / total * 100` never
divides by zero during a reconciliation call. -/
theorem C9_step_implies_positive_total (src dst : String) (a b : Snapshot)
    (rc df dry : Bool) (amount : Nat) (msg : String) :
    (Event.step amount msg ∈ (sync src dst a b rc df dry).1 →
      0 < sync_total a b rc df) ∧
    (sync src dst a b rc df dry).1.head?
        = some (Event.set_total (sync_total a b rc df)) ∧
    (Event.step amount msg ∈ (sync_bidirectional src dst a b rc dry).1 →
      0 < bidirectional_total a b rc) ∧
    (sync_bidirectional src dst a b rc dry).1.head?
        = some (Event.set_total (bidirectional_total a b rc)) := by
  refine ⟨?_, ?_, ?_, ?_⟩
  · intro hm
    by_cases h : sync_total a b rc df = 0
    · simp only [sync] at hm
      rw [if_neg (not_not_intro h)] at hm
      simp at hm
    · omega
  · simp only [sync]
    by_cases h : sync_total a b rc df = 0
    · rw [if_neg (not_not_intro h)]
      rfl
    · rw [if_pos h]
      rfl
  · intro hm
    by_cases h : bidirectional_total a b rc = 0
    · simp only [sync_bidirectional] at hm
      rw [if_neg (not_not_intro h)] at hm
      simp at hm
    · omega
  · simp only [sync_bidirectional]
    by_cases h : bidirectional_total a b rc = 0
    · rw [if_neg (not_not_intro h)]
      rfl
    · rw [if_pos h]
      rfl

/-- Witness for C9: a run with one source-only file does emit a step event,
and the theorem yields the strictly positive totals. -/
theorem C9_step_implies_positive_total_witness :
    0 < sync_total [("f", ⟨"S/f", "f", true, 1⟩)] [] false false ∧
    0 < bidirectional_total [("f", ⟨"S/f", "f", true, 1⟩)] [] false :=
  ⟨(C9_step_implies_positive_total "S" "D" [("f", ⟨"S/f", "f", true, 1⟩)] []
      false false false 1 "R-> Copy f").1 (by decide),
   (C9_step_implies_positive_total "S" "D" [("f", ⟨"S/f", "f", true, 1⟩)] []
      false false false 1 "R-> Copy f").2.2.1 (by decide)⟩

/-- C4 (amended): in a non-dry `sync_bidirectional` run with
`replace_changed = true`, every `changed` key's two mtimes are compared with
strict greater-than on the source side: if `src.mtime > dst.mtime` the
source version is copied over the destination provided the source entry is
a file (when the source entry is a directory nothing is copied), and
otherwise — including the equal-mtime case — the destination version is
copied over the source (the destination entry of a `changed` key is always
a file, so this copy is unconditional). -/
theorem C4_bidirectional_tiebreak (src dst : String) (a b : Snapshot)
    (k : String) (se de : Entry) (hk : k ∈ (diff a b).changed)
    (hs : a.lookup k = some se) (hd : b.lookup k = some de) :
    (de.mtime < se.mtime → se.isfile = true →
      Action.copy_file se.path de.path
        ∈ (sync_bidirectional src dst a b true false).2) ∧
    (se.mtime ≤ de.mtime →
      Action.copy_file de.path se.path
        ∈ (sync_bidirectional src dst a b true false).2) := by
  have hdf : de.isfile = true := by
    obtain ⟨pe, ne, hp, hn, _, hnef⟩ := changed_spec a b k hk
    rw [hd] at hn
    cases hn
    exact hnef
  have htot : bidirectional_total a b true ≠ 0 := by
    have hpos : 0 < (diff a b).changed.length := List.length_pos_of_mem hk
    unfold bidirectional_total
    rw [if_pos rfl]
    omega
  constructor
  · intro hlt hf
    have hmem : Action.copy_file se.path de.path
        ∈ (run_phase (bidir_replace_step a b false) (diff a b).changed).2 :=
      run_phase_mem_snd _ _ k _ hk
        (by simp [bidir_replace_step, hs, hd, hlt, hf])
    simp only [sync_bidirectional]
    rw [if_pos htot]
    simp only [List.mem_append]
    right
    simpa using hmem
  · intro hle
    have hnlt : ¬ de.mtime < se.mtime := not_lt.mpr hle
    have hmem : Action.copy_file de.path se.path
        ∈ (run_phase (bidir_replace_step a b false) (diff a b).changed).2 :=
      run_phase_mem_snd _ _ k _ hk
        (by simp [bidir_replace_step, hs, hd, hnlt, hdf])
    simp only [sync_bidirectional]
    rw [if_pos htot]
    simp only [List.mem_append]
    right
    simpa using hmem

/-- C4 counterexample: the key `"x"` is a directory in the source snapshot
and a file with an older mtime in the destination snapshot, so it is in
`changed` and `src.mtime > dst.mtime` — yet the non-dry run issues no copy
at all, refuting "if src.mtime > dst.mtime the source version is copied
over the destination". -/
theorem C4_bidirectional_tiebreak_cex :
    "x" ∈ (diff [("x", ⟨"S/x", "x", false, 2⟩)]
        [("x", ⟨"D/x", "x", true, 1⟩)]).changed ∧
    ((1 : Int) < 2) ∧
    (sync_bidirectional "S" "D" [("x", ⟨"S/x", "x", false, 2⟩)]
        [("x", ⟨"D/x", "x", true, 1⟩)] true false).2 = [] := by
  decide

/-- Witness for C4: two files named `"x"` with equal mtimes never reach
`changed`, so the tie the claim speaks of is exercised through
`src.mtime < dst.mtime`; the destination version is indeed copied over the
source. -/
theorem C4_bidirectional_tiebreak_witness :
    Action.copy_file "D/x" "S/x"
      ∈ (sync_bidirectional "S" "D" [("x", ⟨"S/x", "x", true, 1⟩)]
          [("x", ⟨"D/x", "x", true, 2⟩)] true false).2 :=
  (C4_bidirectional_tiebreak "S" "D" [("x", ⟨"S/x", "x", true, 1⟩)]
      [("x", ⟨"D/x", "x", true, 2⟩)] "x" ⟨"S/x", "x", true, 1⟩
      ⟨"D/x", "x", true, 2⟩ (by decide) (by decide) (by decide)).2 (by decide)

end Snapshots
